import Mathlib

/-!
Shallow embedding of the trapperkeeper core (Rust) for specification checking.

The embedding models:
* the logical SQLite database state (`Db`) with the tables `trapps`,
  `auth_tokens`, `rules`, `rules_filter_trapp`, `rules_filter_field`;
* the CRUD operations of `src/crud/trapp.rs`, `src/crud/auth_token.rs` and
  `src/crud/rule.rs` as pure state transformers;
* the rule resolver of `src/crud/rule.rs` (including its hard-coded child
  payloads and its `expect` panic on an unrecognized discriminator);
* the pool construction sequence of `src/database.rs`;
* `random_token` of `src/utils.rs` / `src/crypto.rs`;
* the JWT sign/verify pipeline wrapped by `jwt_encode` / `jwt_decode` in
  `src/crypto.rs` (generic over the serde codec and the keyed MAC, with a
  concrete base64url implementation, mirroring the external `jwt` crate's
  token format `header.claims.signature`).

Machine integers (`i64`) are modelled as `Int`; SQLite row ids are assigned
from a monotone counter.  Foreign-key and primary-key constraints of the
schema (the migrations are not part of the source tree) are modelled from the
spec: `auth_tokens.trapp_id` references `trapps.id` with ON DELETE CASCADE
semantics, enforced because every pooled connection enables
`PRAGMA foreign_keys = ON` (`ConnectionOptions::on_acquire`).
-/

/-- `trapps` table row (`models::Trapp`). -/
structure Trapp where
  id : Int
  name : String
  deriving Repr, DecidableEq

/-- `auth_tokens` table row (`models::AuthToken`). -/
structure AuthToken where
  id : String
  trapp_id : Int
  name : String
  deriving Repr, DecidableEq

/-- `rules` parent-table row: common header fields of a polymorphic rule. -/
structure RuleRow where
  id : Int
  name : String
  type_ : Int
  deriving Repr, DecidableEq

/-- `rules_filter_trapp` child-table row. -/
structure RuleFilterTrappRow where
  rule_id : Int
  trapp_id : Int
  deriving Repr, DecidableEq

/-- `rules_filter_field` child-table row. -/
structure RuleFilterFieldRow where
  rule_id : Int
  field_key : String
  field_value : String
  deriving Repr, DecidableEq

/-- The logical database state.  Lists keep storage (insertion) order;
`next_trapp_id` / `next_rule_id` model SQLite's assignment of fresh row ids
reported via `last_insert_rowid`. -/
structure Db where
  trapps : List Trapp
  auth_tokens : List AuthToken
  rules : List RuleRow
  rules_filter_trapp : List RuleFilterTrappRow
  rules_filter_field : List RuleFilterFieldRow
  next_trapp_id : Int
  next_rule_id : Int
  deriving Repr, DecidableEq

def emptyDb : Db := ⟨[], [], [], [], [], 1, 1⟩

/-- Errors surfaced by the store (`crud::Error::SqlxError`).  `fkViolation`
and `uniqueViolation` are the constraint failures SQLite reports;
`stmtFailure` stands for any other failing statement (connectivity etc.). -/
inductive CrudErr where
  | fkViolation
  | uniqueViolation
  | stmtFailure
  deriving Repr, DecidableEq

/-- `crud::create_trapp`: `INSERT INTO trapps (name) VALUES (?1)`, returning
`last_insert_rowid`. -/
def create_trapp (db : Db) (name : String) : Db × Int :=
  ({ db with
      trapps := db.trapps ++ [⟨db.next_trapp_id, name⟩],
      next_trapp_id := db.next_trapp_id + 1 },
   db.next_trapp_id)

/-- `crud::get_trapps`: `SELECT id, name FROM trapps`. -/
def get_trapps (db : Db) : List Trapp :=
  db.trapps

/-- `crud::get_trapp_by_id`: `SELECT id, name FROM trapps WHERE id = ?1`
with `fetch_optional`. -/
def get_trapp_by_id (db : Db) (id : Int) : Option Trapp :=
  db.trapps.find? (fun t => decide (t.id = id))

/-- `crud::delete_trapp_by_id`: `DELETE FROM trapps WHERE id = ?1`, returning
`rows_affected() > 0`.  The cascade to `auth_tokens` rows of the deleted trapp
is the schema's ON DELETE CASCADE foreign key (modelled from the spec; the
migrations are not in the source tree), active because `on_acquire` enables
`PRAGMA foreign_keys = ON` on every pooled connection. -/
def delete_trapp_by_id (db : Db) (id : Int) : Db × Bool :=
  ({ db with
      trapps := db.trapps.filter (fun t => decide (¬ t.id = id)),
      auth_tokens :=
        if db.trapps.any (fun t => decide (t.id = id)) then
          db.auth_tokens.filter (fun a => decide (¬ a.trapp_id = id))
        else
          db.auth_tokens },
   db.trapps.any (fun t => decide (t.id = id)))

/-- `crud::create_auth_token`: generates a fresh random id (modelled as the
explicit argument `tok`, the draw of `crypto::random_token(32)`) and runs
`INSERT INTO auth_tokens (id, trapp_id, name) VALUES (?1, ?2, ?3)`.  The
insert fails with a foreign-key violation when no trapp with `trapp_id`
exists and with a unique violation when the primary key `id` is already
taken (both constraints modelled from the spec's schema, enforced via
`PRAGMA foreign_keys = ON`).  On failure no row is inserted. -/
def create_auth_token (db : Db) (trapp_id : Int) (name : String)
    (tok : String) : Except CrudErr (Db × String) :=
  if db.trapps.any (fun t => decide (t.id = trapp_id)) then
    if db.auth_tokens.any (fun a => decide (a.id = tok)) then
      .error .uniqueViolation
    else
      .ok ({ db with auth_tokens := db.auth_tokens ++ [⟨tok, trapp_id, name⟩] }, tok)
  else
    .error .fkViolation

/-- `crud::get_auth_token_by_id`:
`SELECT id, trapp_id, name FROM auth_tokens WHERE id = ?1`. -/
def get_auth_token_by_id (db : Db) (id : String) : Option AuthToken :=
  db.auth_tokens.find? (fun a => decide (a.id = id))

/-- `crud::get_auth_token_by_trapp_and_id`:
`SELECT id, trapp_id, name FROM auth_tokens WHERE id = ?1 AND trapp_id = ?2`. -/
def get_auth_token_by_trapp_and_id (db : Db) (trapp_id : Int) (id : String) :
    Option AuthToken :=
  db.auth_tokens.find? (fun a => decide (a.id = id) && decide (a.trapp_id = trapp_id))

/-- `crud::get_auth_tokens_by_trapp`:
`SELECT id, name FROM auth_tokens WHERE trapp_id = ?1`. -/
def get_auth_tokens_by_trapp (db : Db) (trapp_id : Int) : List AuthToken :=
  db.auth_tokens.filter (fun a => decide (a.trapp_id = trapp_id))

/-- `crud::delete_auth_token_by_id`: `DELETE FROM auth_tokens WHERE id = ?1`,
returning `rows_affected() > 0`. -/
def delete_auth_token_by_id (db : Db) (id : String) : Db × Bool :=
  ({ db with auth_tokens := db.auth_tokens.filter (fun a => decide (¬ a.id = id)) },
   db.auth_tokens.any (fun a => decide (a.id = id)))

/-- `crud::delete_auth_token_by_trapp_and_id`:
`DELETE FROM auth_tokens WHERE id = ?1 AND trapp_id = ?2`. -/
def delete_auth_token_by_trapp_and_id (db : Db) (trapp_id : Int) (id : String) :
    Db × Bool :=
  ({ db with
      auth_tokens :=
        db.auth_tokens.filter (fun a => decide (¬ (a.id = id ∧ a.trapp_id = trapp_id))) },
   db.auth_tokens.any (fun a => decide (a.id = id ∧ a.trapp_id = trapp_id)))

/-- `models::RuleType`: the closed discriminator set of rule variants. -/
inductive RuleType where
  | FilterTrapp
  | FilterField
  deriving Repr, DecidableEq

/-- Discriminant values of `models::RuleType` (`FilterTrapp = 1`,
`FilterField = 2`). -/
def RuleType.toInt : RuleType → Int
  | .FilterTrapp => 1
  | .FilterField => 2

/-- `TryFrom<i64> for RuleType` (models.rs): `1 → FilterTrapp`,
`2 → FilterField`, anything else is `Err(())`. -/
def ruleTypeTryFrom (v : Int) : Option RuleType :=
  if v = 1 then some .FilterTrapp
  else if v = 2 then some .FilterField
  else none

/-- A rule-creation payload: `models::NewRuleFilterTrapp` or
`models::NewRuleFilterField`. -/
inductive NewRuleT where
  | filterTrapp (name : String) (trapp_id : Int)
  | filterField (name : String) (field_key field_value : String)
  deriving Repr, DecidableEq

/-- The `NewRule::name` trait accessor. -/
def NewRuleT.name : NewRuleT → String
  | .filterTrapp n _ => n
  | .filterField n _ _ => n

/-- `rule.type_() as i64` via the `NewRule::type_` trait accessor. -/
def NewRuleT.type_ : NewRuleT → Int
  | .filterTrapp _ _ => RuleType.toInt .FilterTrapp
  | .filterField _ _ _ => RuleType.toInt .FilterField

/-- A resolved rule: `models::RuleFilterTrapp` / `models::RuleFilterField`
behind `Box<dyn Rule>`. -/
inductive RuleVariant where
  | filterTrapp (id : Int) (name : String) (trapp_id : Int)
  | filterField (id : Int) (name : String) (field_key field_value : String)
  deriving Repr, DecidableEq

/-- `crud::rule::resolve_rule_filter_trapp`: builds
`RuleFilterTrapp::new(id, name, 1234)`.  The connection argument is unused in
the source: the child table is never read and `trapp_id` is the hard-coded
literal `1234`. -/
def resolve_rule_filter_trapp (_db : Db) (id : Int) (name : String) : RuleVariant :=
  .filterTrapp id name 1234

/-- `crud::rule::resolve_rule_filter_field`: builds
`RuleFilterField::new(id, name, "key", "value")` with hard-coded payload; the
child table is never read. -/
def resolve_rule_filter_field (_db : Db) (id : Int) (name : String) : RuleVariant :=
  .filterField id name "key" "value"

/-- `crud::rule::resolve_rule`:
`type_.try_into().expect("Unrecognized rule type")` followed by the variant
dispatch.  `none` models the `expect` panic on an unrecognized
discriminator. -/
def resolve_rule (db : Db) (id : Int) (name : String) (type_ : Int) :
    Option RuleVariant :=
  match ruleTypeTryFrom type_ with
  | none => none
  | some .FilterTrapp => some (resolve_rule_filter_trapp db id name)
  | some .FilterField => some (resolve_rule_filter_field db id name)

/-- Outcome of the rule read path: an `Ok` list of resolved variants, a typed
store error (`crud::Error`), or a process panic raised by `expect`. -/
inductive GetRulesResult where
  | ok (rules : List RuleVariant)
  | err (e : CrudErr)
  | panicked (msg : String)
  deriving Repr, DecidableEq

/-- Whether the outcome is the typed error route (`Err(crud::Error)`), as
opposed to `Ok` or a panic. -/
def GetRulesResult.isTypedErr : GetRulesResult → Bool
  | .err _ => true
  | _ => false

/-- The resolution loop of `crud::rule::get_rules`: rows are resolved in
storage order; the first unrecognized discriminator panics. -/
def resolve_rows (db : Db) : List RuleRow → GetRulesResult
  | [] => .ok []
  | r :: rest =>
    match resolve_rule db r.id r.name r.type_ with
    | none => .panicked "Unrecognized rule type"
    | some v =>
      match resolve_rows db rest with
      | .ok vs => .ok (v :: vs)
      | other => other

/-- `crud::rule::get_rules`: `SELECT id, type_, name FROM rules`, then
resolve each row in order. -/
def get_rules (db : Db) : GetRulesResult :=
  resolve_rows db db.rules

/-- `crud::rule::create_rule`: insert the parent row into `rules` (name and
discriminator), obtain `last_insert_rowid`, then run the variant's child
insert (`CreateRule::create`) — with no surrounding transaction.
`parentOk` / `childOk` inject sqlx statement failures.  When the child insert
fails the function propagates the error with `?` and the already-committed
parent row remains. -/
def create_rule (db : Db) (rule : NewRuleT) (parentOk childOk : Bool) :
    Db × Except CrudErr Int :=
  if parentOk then
    let id := db.next_rule_id
    let db1 := { db with
        rules := db.rules ++ [⟨id, rule.name, rule.type_⟩],
        next_rule_id := id + 1 }
    if childOk then
      match rule with
      | .filterTrapp _ trapp_id =>
        ({ db1 with rules_filter_trapp := db1.rules_filter_trapp ++ [⟨id, trapp_id⟩] },
         .ok id)
      | .filterField _ k v =>
        ({ db1 with rules_filter_field := db1.rules_filter_field ++ [⟨id, k, v⟩] },
         .ok id)
    else
      (db1, .error .stmtFailure)
  else
    (db, .error .stmtFailure)

-- Connection pool construction (`src/database.rs`) ----------------------------

/-- The `database` section of the resolved configuration (`config::Database`). -/
structure DatabaseCfg where
  url : String
  pool_size : Nat
  deriving Repr, DecidableEq

/-- The pool value handed to callers: bounded by `max_size`
(`r2d2 max_size(pool_size)`) and carrying whether migrations have been
applied. -/
structure Pool where
  max_size : Nat
  migrated : Bool
  deriving Repr, DecidableEq

/-- The steps `PoolBuilder::build` executes, in order. -/
inductive BuildStep where
  | poolCreate
  | acquireConn
  | runMigrations
  | returned
  deriving Repr, DecidableEq

/-- Outcome of `PoolBuilder::build`: the pool value, or a fatal `expect`
panic during construction. -/
inductive BuildResult where
  | fatal (msg : String)
  | ready (p : Pool)
  deriving Repr, DecidableEq

/-- Outcomes of the three fallible construction steps: `InnerPool::builder()
.build(...)`, `pool.get()` and `run_migrations`. -/
structure BuildEnv where
  poolBuildOk : Bool
  acquireOk : Bool
  migrationOk : Bool
  deriving Repr, DecidableEq

/-- `PoolBuilder::build`: create the bounded pool, acquire one connection,
run all pending migrations, and only then return the pool.  Each failing step
is fatal (`expect`).  Also records the executed steps in order; `.returned`
marks the pool being handed to the caller. -/
def build (cfg : DatabaseCfg) (env : BuildEnv) : BuildResult × List BuildStep :=
  if env.poolBuildOk = false then
    (.fatal "Failed to create database connection pool", [.poolCreate])
  else if env.acquireOk = false then
    (.fatal "unable to get connection", [.poolCreate, .acquireConn])
  else if env.migrationOk = false then
    (.fatal "unable to run migrations", [.poolCreate, .acquireConn, .runMigrations])
  else
    (.ready ⟨cfg.pool_size, true⟩,
     [.poolCreate, .acquireConn, .runMigrations, .returned])

-- Token generator (`src/utils.rs` / `src/crypto.rs`) --------------------------

/-- The support of rand's `Alphanumeric` distribution, in its order:
uppercase letters, lowercase letters, digits. -/
def alphanumChars : List Char :=
  "ABCDEFGHIJKLMNOPQRSTUVWXYZabcdefghijklmnopqrstuvwxyz0123456789".toList

/-- One draw from `Alphanumeric`, mapped through `char::from`. -/
def sampleChar (k : Fin 62) : Char :=
  alphanumChars.getD k.val 'A'

/-- `utils::random_token` / `crypto::random_token`:
`thread_rng().sample_iter(Alphanumeric).take(n).map(char::from).collect()`.
The thread RNG is modelled as the stream `g` of draws from the Alphanumeric
distribution (each uniform over its 62-character support). -/
def random_token (g : Nat → Fin 62) (n : Nat) : String :=
  ⟨(List.range n).map (fun i => sampleChar (g i))⟩

/-- Membership in the alphanumeric alphabet A-Z, a-z, 0-9. -/
def isAlphanumChar (c : Char) : Bool :=
  (decide ('A' ≤ c) && decide (c ≤ 'Z'))
    || (decide ('a' ≤ c) && decide (c ≤ 'z'))
    || (decide ('0' ≤ c) && decide (c ≤ '9'))

-- Signer (`src/crypto.rs`): JWT over HMAC ------------------------------------

/-- The base64url alphabet (URL-safe, no padding), as used for JWT token
components. -/
def b64chars : List Char :=
  "ABCDEFGHIJKLMNOPQRSTUVWXYZabcdefghijklmnopqrstuvwxyz0123456789-_".toList

/-- The character for a sextet value. -/
def b64char (i : Nat) : Char :=
  b64chars.getD i 'A'

def b64valAux : List Char → Nat → Char → Option Nat
  | [], _, _ => none
  | d :: rest, k, c => if c = d then some k else b64valAux rest (k + 1) c

/-- The sextet value of a base64url character. -/
def b64val (c : Char) : Option Nat :=
  b64valAux b64chars 0 c

/-- base64url encoding (no padding) of a byte sequence. -/
def b64encodeBytes : List Nat → List Char
  | [] => []
  | [b0] => [b64char (b0 / 4), b64char (b0 % 4 * 16)]
  | [b0, b1] =>
    [b64char (b0 / 4), b64char (b0 % 4 * 16 + b1 / 16), b64char (b1 % 16 * 4)]
  | b0 :: b1 :: b2 :: rest =>
    b64char (b0 / 4) :: b64char (b0 % 4 * 16 + b1 / 16)
      :: b64char (b1 % 16 * 4 + b2 / 64) :: b64char (b2 % 64)
      :: b64encodeBytes rest

/-- base64url decoding (no padding, rejecting non-zero trailing bits). -/
def b64decodeChars : List Char → Option (List Nat)
  | [] => some []
  | [_] => none
  | [c0, c1] =>
    match b64val c0, b64val c1 with
    | some v0, some v1 =>
      if v1 % 16 = 0 then some [v0 * 4 + v1 / 16] else none
    | _, _ => none
  | [c0, c1, c2] =>
    match b64val c0, b64val c1, b64val c2 with
    | some v0, some v1, some v2 =>
      if v2 % 4 = 0 then some [v0 * 4 + v1 / 16, v1 % 16 * 16 + v2 / 4] else none
    | _, _, _ => none
  | c0 :: c1 :: c2 :: c3 :: rest =>
    match b64val c0, b64val c1, b64val c2, b64val c3, b64decodeChars rest with
    | some v0, some v1, some v2, some v3, some bs =>
      some ((v0 * 4 + v1 / 16) :: (v1 % 16 * 16 + v2 / 4) :: (v2 % 4 * 64 + v3) :: bs)
    | _, _, _, _, _ => none

def splitDotAux : List Char → List Char → List (List Char)
  | [], acc => [acc.reverse]
  | c :: rest, acc =>
    if c = '.' then acc.reverse :: splitDotAux rest [] else splitDotAux rest (c :: acc)

/-- Splitting a token string on the `.` separators of the JWT format. -/
def splitDot (l : List Char) : List (List Char) :=
  splitDotAux l []

/-- The serialized JWT header the `jwt` crate emits for an HMAC-SHA256 key,
as UTF-8 bytes. -/
def headerJson : List Nat :=
  "\x7b\"alg\":\"HS256\"\x7d".toList.map Char.toNat

/-- The base64url-encoded header component. -/
def headerB64 : List Char :=
  b64encodeBytes headerJson

/-- `crypto::Error::JwtVerificationFailed(jwt::Error)`: the verification
failure modes of `jwt_decode`. -/
inductive JwtError where
  | invalidFormat
  | invalidBase64
  | invalidHeader
  | invalidSignature
  | invalidClaims
  deriving Repr, DecidableEq

/-- `crypto::jwt_encode`: `claim.sign_with_key(key)`.  Produces
`base64url(header) ++ "." ++ base64url(serde(claim)) ++ "." ++
base64url(mac(key, signing_input))`.  The claim serializer `ser` (serde) and
the keyed hash `mac` (HMAC-SHA256) are the external collaborators the source
is generic over. -/
def jwt_encode {C : Type} (ser : C → List Nat)
    (mac : List Nat → List Nat → List Nat) (key : List Nat) (claim : C) :
    List Char :=
  (headerB64 ++ '.' :: b64encodeBytes (ser claim))
    ++ '.' :: b64encodeBytes
        (mac key ((headerB64 ++ '.' :: b64encodeBytes (ser claim)).map Char.toNat))

/-- `crypto::jwt_decode`: `VerifyWithKey::verify_with_key`.  Splits the token
into its three `.`-separated components, checks the header, recomputes the
signature over `header.claims` and compares it against the embedded
signature, and only then deserializes the claims; every failing check is a
`JwtVerificationFailed` error, with no partial acceptance. -/
def jwtVerifyParts {C : Type} (deser : List Nat → Option C)
    (mac : List Nat → List Nat → List Nat) (key : List Nat)
    (h p s : List Char) : Except JwtError C :=
  match b64decodeChars h with
  | none => .error .invalidBase64
  | some hb =>
    if hb = headerJson then
      match b64decodeChars s with
      | none => .error .invalidBase64
      | some sigBytes =>
        if mac key ((h ++ '.' :: p).map Char.toNat) = sigBytes then
          match b64decodeChars p with
          | none => .error .invalidBase64
          | some pb =>
            match deser pb with
            | some c => .ok c
            | none => .error .invalidClaims
        else .error .invalidSignature
    else .error .invalidHeader

def jwt_decode {C : Type} (deser : List Nat → Option C)
    (mac : List Nat → List Nat → List Nat) (key : List Nat) (tok : List Char) :
    Except JwtError C :=
  match splitDot tok with
  | [h, p, s] => jwtVerifyParts deser mac key h p s
  | _ => .error .invalidFormat

-- Reachable database states --------------------------------------------------

/-- Database states reachable from the freshly migrated (empty) schema by the
entity-store operations, including failed auth-token creations (which insert
nothing) and rule creations with injected statement failures. -/
inductive Reachable : Db → Prop where
  | empty : Reachable emptyDb
  | stepCreateTrapp (db : Db) (name : String) :
      Reachable db → Reachable (create_trapp db name).fst
  | stepCreateAuthToken (db db' : Db) (trapp_id : Int) (name tok s : String) :
      Reachable db → create_auth_token db trapp_id name tok = .ok (db', s) →
      Reachable db'
  | stepDeleteTrapp (db : Db) (id : Int) :
      Reachable db → Reachable (delete_trapp_by_id db id).fst
  | stepDeleteAuthToken (db : Db) (id : String) :
      Reachable db → Reachable (delete_auth_token_by_id db id).fst
  | stepDeleteAuthTokenScoped (db : Db) (trapp_id : Int) (id : String) :
      Reachable db → Reachable (delete_auth_token_by_trapp_and_id db trapp_id id).fst
  | stepCreateRule (db : Db) (rule : NewRuleT) (parentOk childOk : Bool) :
      Reachable db → Reachable (create_rule db rule parentOk childOk).fst

/-- The referential-integrity invariant: every auth token references an
existing trapp row, and token ids (the primary key) are pairwise distinct. -/
def dbInv (db : Db) : Prop :=
  (∀ t ∈ db.auth_tokens, ∃ tr ∈ db.trapps, tr.id = t.trapp_id)
    ∧ (db.auth_tokens.map AuthToken.id).Nodup

/-- The reachable state holding trapp 1 and one auth token for it. -/
def dbTok : Db :=
  ⟨[⟨1, "foo"⟩], [⟨"tok32", 1, "bar"⟩], [], [], [], 2, 1⟩

/-- A database whose `rules` table holds a row with the undefined
discriminator 3. -/
def dbBadRule : Db :=
  { emptyDb with rules := [⟨1, "x", 3⟩], next_rule_id := 2 }

/-- A sample database holding exactly one trapp row with id 1. -/
def dbOneTrapp : Db := (create_trapp emptyDb "foo").fst

/-- A sample database with two auth tokens on different trapps. -/
def dbTwoTokens : Db :=
  { emptyDb with
      trapps := [⟨1, "foo"⟩, ⟨2, "bar"⟩],
      auth_tokens := [⟨"a", 1, "x"⟩, ⟨"b", 2, "y"⟩],
      next_trapp_id := 3 }

instance {ε α : Type} [DecidableEq ε] [DecidableEq α] : DecidableEq (Except ε α) :=
  fun a b =>
    match a, b with
    | .ok x, .ok y => decidable_of_iff (x = y) (by simp)
    | .error x, .error y => decidable_of_iff (x = y) (by simp)
    | .ok _, .error _ => isFalse (by simp)
    | .error _, .ok _ => isFalse (by simp)

-- Helper lemmas ---------------------------------------------------------------

/-- Deleting an id that no trapp row carries leaves the database unchanged and
reports `false` (no rows affected). -/
theorem delete_trapp_absent (db : Db) (id : Int)
    (h : get_trapp_by_id db id = none) :
    delete_trapp_by_id db id = (db, false) := by
  have hall : ∀ t ∈ db.trapps, ¬ (t.id = id) := by
    intro t ht
    have := List.find?_eq_none.mp h t ht
    simpa using this
  have hany : db.trapps.any (fun t => decide (t.id = id)) = false := by
    simp only [List.any_eq_false]
    intro t ht
    simpa using hall t ht
  have hfil : db.trapps.filter (fun t => decide (¬ t.id = id)) = db.trapps := by
    apply List.filter_eq_self.mpr
    intro t ht
    simpa using hall t ht
  cases db
  simp_all [delete_trapp_by_id]

/-- In the result state of `delete_trapp_by_id db id`, no trapp row carries
`id` any more. -/
theorem delete_trapp_gone (db : Db) (id : Int) :
    get_trapp_by_id (delete_trapp_by_id db id).fst id = none := by
  apply List.find?_eq_none.mpr
  intro t ht
  simp only [delete_trapp_by_id, List.mem_filter] at ht
  simpa using ht.2

/-- If the ids in `l` are pairwise distinct, two members with the same id are
the same row. -/
theorem nodup_id_inj {l : List AuthToken}
    (h : (l.map AuthToken.id).Nodup) {a b : AuthToken}
    (ha : a ∈ l) (hb : b ∈ l) (hid : a.id = b.id) : a = b := by
  induction l with
  | nil => cases ha
  | cons x rest ih =>
    simp only [List.map_cons, List.nodup_cons] at h
    rcases List.mem_cons.mp ha with rfl | ha'
    · rcases List.mem_cons.mp hb with rfl | hb'
      · rfl
      · exact absurd (hid ▸ List.mem_map_of_mem AuthToken.id hb') h.1
    · rcases List.mem_cons.mp hb with rfl | hb'
      · exact absurd (hid ▸ List.mem_map_of_mem AuthToken.id ha') h.1
      · exact ih h.2 ha' hb'

/-- The trapp-scoped token lookup agrees with the unscoped one filtered on the
trapp, provided token ids are pairwise distinct. -/
theorem find_scoped_iff (l : List AuthToken) (t : Int) (i : String)
    (tok : AuthToken) (h : (l.map AuthToken.id).Nodup) :
    l.find? (fun a => decide (a.id = i) && decide (a.trapp_id = t)) = some tok
      ↔ (l.find? (fun a => decide (a.id = i)) = some tok ∧ tok.trapp_id = t) := by
  induction l with
  | nil => simp
  | cons a rest ih =>
    simp only [List.map_cons, List.nodup_cons] at h
    by_cases hid : a.id = i
    · by_cases htr : a.trapp_id = t
      · rw [List.find?_cons_of_pos _ (by simp [hid, htr]),
           List.find?_cons_of_pos _ (by simp [hid])]
        constructor
        · rintro h'
          exact ⟨h', by cases h'; exact htr⟩
        · exact fun h' => h'.1
      · rw [List.find?_cons_of_neg _ (by simp [htr]),
           List.find?_cons_of_pos _ (by simp [hid])]
        have hrest :
            rest.find? (fun a => decide (a.id = i) && decide (a.trapp_id = t)) = none := by
          apply List.find?_eq_none.mpr
          intro x hx
          simp only [Bool.and_eq_true, decide_eq_true_eq, not_and]
          intro hxi _
          exact h.1 (by simpa [hxi, ← hid] using List.mem_map_of_mem AuthToken.id hx)
        rw [hrest]
        constructor
        · intro h'; cases h'
        · rintro ⟨h', htok⟩
          cases h'
          exact absurd htok htr
    · rw [List.find?_cons_of_neg _ (by simp [hid]),
         List.find?_cons_of_neg _ (by simp [hid])]
      exact ih h.2

-- Claim theorems: C9 and C10 --------------------------------------------------

/-- Claim C9: `delete_trapp_by_id` returns `true` exactly when a row was
removed; on an id with no existing trapp row it returns `false` (a normal
outcome, not an error) and leaves the state unchanged, and calling it again
on the resulting state again returns `false` with the state unchanged, any
number of times. -/
theorem delete_trapp_by_id_idempotent_absent (db : Db) (id : Int) :
    ((delete_trapp_by_id db id).snd = true
        ↔ db.trapps.any (fun t => decide (t.id = id)) = true)
    ∧ (get_trapp_by_id db id = none → delete_trapp_by_id db id = (db, false))
    ∧ delete_trapp_by_id (delete_trapp_by_id db id).fst id
        = ((delete_trapp_by_id db id).fst, false) := by
  refine ⟨Iff.rfl, delete_trapp_absent db id, ?_⟩
  exact delete_trapp_absent _ id (delete_trapp_gone db id)

/-- Witness for C9 at a concrete state: the database containing only trapp 1;
deleting the absent id 2 returns `false` and changes nothing, and a second
deletion of id 1 (after the first removed it) also returns `false` on the
unchanged state. -/
theorem delete_trapp_by_id_idempotent_absent_witness :
    delete_trapp_by_id dbOneTrapp 2 = (dbOneTrapp, false)
    ∧ delete_trapp_by_id (delete_trapp_by_id dbOneTrapp 1).fst 1
        = ((delete_trapp_by_id dbOneTrapp 1).fst, false) :=
  ⟨(delete_trapp_by_id_idempotent_absent dbOneTrapp 2).2.1 (by decide),
   (delete_trapp_by_id_idempotent_absent dbOneTrapp 1).2.2⟩

/-- Claim C10: the trapp-scoped lookup returns exactly the tokens the unscoped
lookup returns when they belong to the given trapp, and never a token of a
different trapp; token ids are pairwise distinct (`auth_tokens.id` is the
primary key). -/
theorem get_auth_token_by_trapp_and_id_spec (db : Db) (t : Int) (i : String)
    (tok : AuthToken) (h : (db.auth_tokens.map AuthToken.id).Nodup) :
    get_auth_token_by_trapp_and_id db t i = some tok
      ↔ (get_auth_token_by_id db i = some tok ∧ tok.trapp_id = t) :=
  find_scoped_iff db.auth_tokens t i tok h

/-- Witness for C10 at a concrete state with two tokens. -/
theorem get_auth_token_by_trapp_and_id_spec_witness :
    get_auth_token_by_trapp_and_id dbTwoTokens 2 "b" = some ⟨"b", 2, "y"⟩
      ↔ (get_auth_token_by_id dbTwoTokens "b" = some ⟨"b", 2, "y"⟩
          ∧ AuthToken.trapp_id ⟨"b", 2, "y"⟩ = 2) :=
  get_auth_token_by_trapp_and_id_spec dbTwoTokens 2 "b" ⟨"b", 2, "y"⟩ (by decide)

/-- If some row of `l` carries an unrecognized discriminator, the resolution
loop panics (it does not skip the row, guess a variant, or return a typed
error). -/
theorem resolve_rows_panic (db : Db) (l : List RuleRow)
    (h : l.any (fun r => decide (ruleTypeTryFrom r.type_ = none)) = true) :
    resolve_rows db l = .panicked "Unrecognized rule type" := by
  induction l with
  | nil => simp at h
  | cons r rest ih =>
    simp only [List.any_cons, Bool.or_eq_true, decide_eq_true_eq] at h
    cases hr : ruleTypeTryFrom r.type_ with
    | none => simp [resolve_rows, resolve_rule, hr]
    | some rt =>
      have h' : rest.any (fun r => decide (ruleTypeTryFrom r.type_ = none)) = true := by
        rcases h with h | h
        · rw [h] at hr; exact Option.noConfusion hr
        · exact h
      cases rt <;> simp [resolve_rows, resolve_rule, hr, ih h']

/-- Filtering auth tokens preserves distinctness of their ids. -/
theorem nodup_ids_filter (l : List AuthToken) (p : AuthToken → Bool)
    (h : (l.map AuthToken.id).Nodup) : ((l.filter p).map AuthToken.id).Nodup :=
  List.Nodup.sublist (List.Sublist.map AuthToken.id (List.filter_sublist _)) h

/-- Every reachable database state satisfies the referential-integrity
invariant. -/
theorem reachable_inv (db : Db) (h : Reachable db) : dbInv db := by
  induction h with
  | empty => exact ⟨by simp [emptyDb], by simp [emptyDb]⟩
  | stepCreateTrapp db name _ ih =>
    obtain ⟨h1, h2⟩ := ih
    constructor
    · intro t ht
      obtain ⟨tr, htr, hid⟩ := h1 t ht
      exact ⟨tr, List.mem_append_left _ htr, hid⟩
    · exact h2
  | stepCreateAuthToken db db' trapp_id name tok s _ heq ih =>
    obtain ⟨h1, h2⟩ := ih
    simp only [create_auth_token] at heq
    by_cases htr : db.trapps.any (fun t => decide (t.id = trapp_id)) = true
    · rw [if_pos htr] at heq
      by_cases htok : db.auth_tokens.any (fun a => decide (a.id = tok)) = true
      · rw [if_pos htok] at heq
        exact absurd heq (by simp)
      · rw [if_neg htok] at heq
        injection heq with hpair
        have hdb : ({ db with auth_tokens := db.auth_tokens ++ [⟨tok, trapp_id, name⟩] } : Db)
            = db' := congrArg Prod.fst hpair
        subst hdb
        constructor
        · intro t ht
          rcases List.mem_append.mp ht with hold | hnew
          · exact h1 t hold
          · have hteq : t = ⟨tok, trapp_id, name⟩ := by simpa using hnew
            subst hteq
            obtain ⟨tr, htrm, htrid⟩ := List.any_eq_true.mp htr
            exact ⟨tr, htrm, of_decide_eq_true htrid⟩
        · have hnotin : tok ∉ db.auth_tokens.map AuthToken.id := by
            intro hmem
            obtain ⟨a, ham, haid⟩ := List.mem_map.mp hmem
            exact htok (List.any_eq_true.mpr ⟨a, ham, by simp [haid]⟩)
          have hmaps :
              ({ db with auth_tokens := db.auth_tokens ++ [⟨tok, trapp_id, name⟩] } : Db).auth_tokens.map AuthToken.id
                = db.auth_tokens.map AuthToken.id ++ [tok] := by
            simp
          rw [hmaps, List.nodup_append]
          refine ⟨h2, List.nodup_singleton _, ?_⟩
          intro a ha hb
          have : a = tok := by simpa using hb
          subst this
          exact hnotin ha
    · rw [if_neg htr] at heq
      exact absurd heq (by simp)
  | stepDeleteTrapp db id _ ih =>
    obtain ⟨h1, h2⟩ := ih
    by_cases hrow : db.trapps.any (fun t => decide (t.id = id)) = true
    · constructor
      · intro t ht
        have ht' : t ∈ db.auth_tokens.filter (fun a => decide (¬ a.trapp_id = id)) := by
          simpa [delete_trapp_by_id, hrow] using ht
        obtain ⟨htm, htp⟩ := List.mem_filter.mp ht'
        have htp' : ¬ t.trapp_id = id := of_decide_eq_true htp
        obtain ⟨tr, htrm, hid⟩ := h1 t htm
        refine ⟨tr, ?_, hid⟩
        show tr ∈ db.trapps.filter (fun x => decide (¬ x.id = id))
        exact List.mem_filter.mpr ⟨htrm, decide_eq_true (by rw [hid]; exact htp')⟩
      · have htoks : (delete_trapp_by_id db id).fst.auth_tokens
            = db.auth_tokens.filter (fun a => decide (¬ a.trapp_id = id)) := by
          simp [delete_trapp_by_id, hrow]
        rw [htoks]
        exact nodup_ids_filter _ _ h2
    · constructor
      · intro t ht
        have ht' : t ∈ db.auth_tokens := by
          simpa [delete_trapp_by_id, hrow] using ht
        obtain ⟨tr, htrm, hid⟩ := h1 t ht'
        refine ⟨tr, ?_, hid⟩
        show tr ∈ db.trapps.filter (fun x => decide (¬ x.id = id))
        refine List.mem_filter.mpr ⟨htrm, decide_eq_true ?_⟩
        intro hcon
        exact hrow (List.any_eq_true.mpr ⟨tr, htrm, by simp [hcon]⟩)
      · have htoks : (delete_trapp_by_id db id).fst.auth_tokens = db.auth_tokens := by
          simp [delete_trapp_by_id, hrow]
        rw [htoks]
        exact h2
  | stepDeleteAuthToken db id _ ih =>
    obtain ⟨h1, h2⟩ := ih
    constructor
    · intro t ht
      obtain ⟨htm, -⟩ := List.mem_filter.mp ht
      exact h1 t htm
    · exact nodup_ids_filter _ _ h2
  | stepDeleteAuthTokenScoped db trapp_id id _ ih =>
    obtain ⟨h1, h2⟩ := ih
    constructor
    · intro t ht
      obtain ⟨htm, -⟩ := List.mem_filter.mp ht
      exact h1 t htm
    · exact nodup_ids_filter _ _ h2
  | stepCreateRule db rule parentOk childOk _ ih =>
    obtain ⟨h1, h2⟩ := ih
    have hat : (create_rule db rule parentOk childOk).fst.auth_tokens = db.auth_tokens := by
      cases parentOk <;> cases childOk <;> cases rule <;> rfl
    have htr : (create_rule db rule parentOk childOk).fst.trapps = db.trapps := by
      cases parentOk <;> cases childOk <;> cases rule <;> rfl
    constructor
    · intro t ht
      rw [hat] at ht
      obtain ⟨tr, htrm, hid⟩ := h1 t ht
      rw [htr]
      exact ⟨tr, htrm, hid⟩
    · rw [hat]
      exact h2

-- Claim theorem: C2 -----------------------------------------------------------

/-- Claim C2: in every reachable state each auth token references an existing
trapp; creating an auth token under a nonexistent trapp fails with the
foreign-key violation (inserting no row, since the error carries no state);
and deleting a trapp cascades, so each token it owned is absent from a
subsequent `get_auth_token_by_id`. -/
theorem auth_token_referential_integrity (db : Db) (a : AuthToken) (tid : Int)
    (nm tok : String) (h : Reachable db) :
    (a ∈ db.auth_tokens →
        db.trapps.any (fun tr => decide (tr.id = a.trapp_id)) = true)
    ∧ (get_trapp_by_id db tid = none →
        create_auth_token db tid nm tok = .error .fkViolation)
    ∧ (a ∈ db.auth_tokens → a.trapp_id = tid →
        get_auth_token_by_id (delete_trapp_by_id db tid).fst a.id = none) := by
  obtain ⟨h1, h2⟩ := reachable_inv db h
  refine ⟨?_, ?_, ?_⟩
  · intro ha
    obtain ⟨tr, htrm, hid⟩ := h1 a ha
    exact List.any_eq_true.mpr ⟨tr, htrm, by simp [hid]⟩
  · intro habs
    have hany : db.trapps.any (fun t => decide (t.id = tid)) = false := by
      rw [List.any_eq_false]
      intro t ht
      simpa using List.find?_eq_none.mp habs t ht
    simp [create_auth_token, hany]
  · intro ha hti
    have hrow : db.trapps.any (fun t => decide (t.id = tid)) = true := by
      obtain ⟨tr, htrm, hid⟩ := h1 a ha
      exact List.any_eq_true.mpr ⟨tr, htrm, by simp [hid, hti]⟩
    have htoks : (delete_trapp_by_id db tid).fst.auth_tokens
        = db.auth_tokens.filter (fun x => decide (¬ x.trapp_id = tid)) := by
      simp [delete_trapp_by_id, hrow]
    apply List.find?_eq_none.mpr
    intro x hx
    rw [htoks] at hx
    obtain ⟨hxm, hxp⟩ := List.mem_filter.mp hx
    have hxp' : ¬ x.trapp_id = tid := of_decide_eq_true hxp
    simp only [decide_eq_true_eq]
    intro hxi
    exact hxp' (by rw [nodup_id_inj h2 hxm ha hxi, hti])

/-- Witness for C2 at the concrete reachable state `dbTok` (trapp 1 plus one
token): the token's trapp exists, creating a token under the nonexistent
trapp 99 fails with the foreign-key violation, and after deleting trapp 1
the cascaded token is absent. -/
theorem auth_token_referential_integrity_witness :
    dbTok.trapps.any (fun tr => decide (tr.id = AuthToken.trapp_id ⟨"tok32", 1, "bar"⟩)) = true
    ∧ create_auth_token dbTok 99 "x" "t2" = .error .fkViolation
    ∧ get_auth_token_by_id (delete_trapp_by_id dbTok 1).fst "tok32" = none := by
  have hreach : Reachable dbTok :=
    Reachable.stepCreateAuthToken dbOneTrapp dbTok 1 "bar" "tok32" "tok32"
      (Reachable.stepCreateTrapp emptyDb "foo" Reachable.empty) (by decide)
  refine ⟨?_, ?_, ?_⟩
  · exact (auth_token_referential_integrity dbTok ⟨"tok32", 1, "bar"⟩ 1 "x" "t2" hreach).1
      (by decide)
  · exact (auth_token_referential_integrity dbTok ⟨"tok32", 1, "bar"⟩ 99 "x" "t2" hreach).2.1
      (by decide)
  · exact (auth_token_referential_integrity dbTok ⟨"tok32", 1, "bar"⟩ 1 "x" "t2" hreach).2.2
      (by decide) (by decide)

-- Claim theorems: rules (C1, C3, C4) ------------------------------------------

/-- Claim C1 (code bug): the resolvers never read the child tables, so the
round-trip fails.  Creating a `FilterTrapp` rule with `trapp_id = 7` stores
the child row `(1, 7)`, yet `get_rules` resolves the rule with the hard-coded
`trapp_id = 1234`; a `FilterField` rule created with key `"k2"` and value
`"v2"` resolves to the hard-coded `("key", "value")`.  Only the name and the
discriminator survive the round trip. -/
theorem rule_resolver_hardcodes_payload :
    (create_rule emptyDb (.filterTrapp "foo" 7) true true).snd = .ok 1
    ∧ (create_rule emptyDb (.filterTrapp "foo" 7) true true).fst.rules_filter_trapp
        = [⟨1, 7⟩]
    ∧ get_rules (create_rule emptyDb (.filterTrapp "foo" 7) true true).fst
        = .ok [.filterTrapp 1 "foo" 1234]
    ∧ ¬ get_rules (create_rule emptyDb (.filterTrapp "foo" 7) true true).fst
        = .ok [.filterTrapp 1 "foo" 7]
    ∧ (create_rule emptyDb (.filterField "bar" "k2" "v2") true true).snd = .ok 1
    ∧ (create_rule emptyDb (.filterField "bar" "k2" "v2") true true).fst.rules_filter_field
        = [⟨1, "k2", "v2"⟩]
    ∧ get_rules (create_rule emptyDb (.filterField "bar" "k2" "v2") true true).fst
        = .ok [.filterField 1 "bar" "key" "value"] := by
  decide

/-- Claim C3 (code bug): `create_rule` runs the two inserts without a
transaction.  When the child insert fails after a successful parent insert,
the call returns an error but the parent `rules` row remains with no matching
child row — the creation is not atomic. -/
theorem create_rule_not_atomic :
    (create_rule emptyDb (.filterTrapp "foo" 5) true false).snd
        = .error .stmtFailure
    ∧ (create_rule emptyDb (.filterTrapp "foo" 5) true false).fst.rules
        = [⟨1, "foo", 1⟩]
    ∧ (create_rule emptyDb (.filterTrapp "foo" 5) true false).fst.rules_filter_trapp
        = [] := by
  decide

/-- Claim C4, counterexample: on a rules table holding a row with the
undefined discriminator 3, the read path does not return the typed error
outcome — it panics via `expect("Unrecognized rule type")`, which is the
crash path, refuting the claim that the core returns a typed outcome for
this read. -/
theorem get_rules_unknown_discriminator_counterexample :
    GetRulesResult.isTypedErr (get_rules dbBadRule) = false
    ∧ get_rules dbBadRule = .panicked "Unrecognized rule type" := by
  decide

/-- Claim C4, amended: whenever some rule row carries a discriminator outside
{1, 2}, `get_rules` fails for that whole read — it neither skips the row nor
guesses a variant — but it does so by panicking via
`expect("Unrecognized rule type")` rather than by returning the typed error
outcome. -/
theorem get_rules_unknown_discriminator_panics (db : Db)
    (h : db.rules.any (fun r => decide (ruleTypeTryFrom r.type_ = none)) = true) :
    get_rules db = .panicked "Unrecognized rule type" :=
  resolve_rows_panic db db.rules h

/-- Witness for the amended C4 at the concrete corrupt database. -/
theorem get_rules_unknown_discriminator_panics_witness :
    get_rules dbBadRule = GetRulesResult.panicked "Unrecognized rule type" :=
  get_rules_unknown_discriminator_panics dbBadRule (by decide)

-- Claim theorems: pool construction (C8) --------------------------------------

/-- Claim C8: `PoolBuilder::build` hands out a pool only after the bounded
pool (max `pool_size` connections) is created, a connection is acquired and
all pending migrations ran; whenever it returns a pool, the migration step
precedes the return in the executed-step order, so no caller can observe a
partially migrated schema; and if the migration step fails, construction is
fatal and never returns a pool. -/
theorem pool_build_spec (cfg : DatabaseCfg) (env : BuildEnv) (p : Pool) :
    ((build cfg env).fst = .ready p →
        p.migrated = true ∧ p.max_size = cfg.pool_size
          ∧ (build cfg env).snd
              = [.poolCreate, .acquireConn, .runMigrations, .returned])
    ∧ (env.migrationOk = false →
        (build cfg env).fst ≠ .ready p
          ∧ BuildStep.returned ∉ (build cfg env).snd) := by
  rcases env with ⟨pb, aq, mg⟩
  cases pb <;> cases aq <;> cases mg <;> simp_all [build]
  all_goals rintro rfl
  all_goals simp

/-- Witness for C8: with every step succeeding the returned pool is migrated
and bounded by the configured size 8, with the migration step preceding the
return; with a failing migration step nothing is returned. -/
theorem pool_build_spec_witness :
    (Pool.migrated ⟨8, true⟩ = true ∧ Pool.max_size ⟨8, true⟩ = 8
      ∧ (build ⟨"sqlite://./tk.sqlite", 8⟩ ⟨true, true, true⟩).snd
          = [.poolCreate, .acquireConn, .runMigrations, .returned])
    ∧ ((build ⟨"sqlite://./tk.sqlite", 8⟩ ⟨true, true, false⟩).fst
          ≠ BuildResult.ready ⟨8, true⟩
        ∧ BuildStep.returned
            ∉ (build ⟨"sqlite://./tk.sqlite", 8⟩ ⟨true, true, false⟩).snd) :=
  ⟨(pool_build_spec ⟨"sqlite://./tk.sqlite", 8⟩ ⟨true, true, true⟩ ⟨8, true⟩).1 rfl,
   (pool_build_spec ⟨"sqlite://./tk.sqlite", 8⟩ ⟨true, true, false⟩ ⟨8, true⟩).2 rfl⟩

-- Claim theorems: token generator (C7) ----------------------------------------

/-- Every draw from the Alphanumeric support is an alphanumeric character. -/
theorem sampleChar_alnum : ∀ k : Fin 62, isAlphanumChar (sampleChar k) = true := by
  decide

-- Base64 and token-format lemmas ---------------------------------------------

theorem b64val_b64char_fin : ∀ i : Fin 64, b64val (b64char i.val) = some i.val := by
  decide

theorem b64val_b64char (s : Nat) (h : s < 64) : b64val (b64char s) = some s :=
  b64val_b64char_fin ⟨s, h⟩

theorem b64char_ne_dot (i : Nat) : b64char i ≠ '.' := by
  by_cases h : i < 64
  · exact (by decide : ∀ j : Fin 64, b64char j.val ≠ '.') ⟨i, h⟩
  · have hlen : b64chars.length ≤ i := by
      have : b64chars.length = 64 := by decide
      omega
    rw [b64char, List.getD_eq_default _ _ hlen]
    decide

/-- base64url output never contains the `.` separator. -/
theorem b64encode_no_dot : ∀ bs : List Nat, '.' ∉ b64encodeBytes bs
  | [] => by simp [b64encodeBytes]
  | [b0] => by
    intro hmem
    simp only [b64encodeBytes, List.mem_cons, List.not_mem_nil, or_false] at hmem
    rcases hmem with h | h
    · exact b64char_ne_dot _ h.symm
    · exact b64char_ne_dot _ h.symm
  | [b0, b1] => by
    intro hmem
    simp only [b64encodeBytes, List.mem_cons, List.not_mem_nil, or_false] at hmem
    rcases hmem with h | h | h
    · exact b64char_ne_dot _ h.symm
    · exact b64char_ne_dot _ h.symm
    · exact b64char_ne_dot _ h.symm
  | b0 :: b1 :: b2 :: rest => by
    intro hmem
    simp only [b64encodeBytes, List.mem_cons] at hmem
    rcases hmem with h | h | h | h | h
    · exact b64char_ne_dot _ h.symm
    · exact b64char_ne_dot _ h.symm
    · exact b64char_ne_dot _ h.symm
    · exact b64char_ne_dot _ h.symm
    · exact b64encode_no_dot rest h

/-- base64url decoding inverts encoding on byte sequences. -/
theorem b64_roundtrip : ∀ bs : List Nat, (∀ b ∈ bs, b < 256) →
    b64decodeChars (b64encodeBytes bs) = some bs
  | [], _ => by simp [b64encodeBytes, b64decodeChars]
  | [b0], h => by
    have hb0 : b0 < 256 := h b0 (by simp)
    simp only [b64encodeBytes, b64decodeChars,
      b64val_b64char (b0 / 4) (by omega), b64val_b64char (b0 % 4 * 16) (by omega)]
    rw [if_pos (by omega)]
    have hx : b0 / 4 * 4 + b0 % 4 * 16 / 16 = b0 := by omega
    rw [hx]
  | [b0, b1], h => by
    have hb0 : b0 < 256 := h b0 (by simp)
    have hb1 : b1 < 256 := h b1 (by simp)
    simp only [b64encodeBytes, b64decodeChars,
      b64val_b64char (b0 / 4) (by omega),
      b64val_b64char (b0 % 4 * 16 + b1 / 16) (by omega),
      b64val_b64char (b1 % 16 * 4) (by omega)]
    rw [if_pos (by omega)]
    have hx : b0 / 4 * 4 + (b0 % 4 * 16 + b1 / 16) / 16 = b0 := by omega
    have hy : (b0 % 4 * 16 + b1 / 16) % 16 * 16 + b1 % 16 * 4 / 4 = b1 := by omega
    rw [hx, hy]
  | b0 :: b1 :: b2 :: rest, h => by
    have hb0 : b0 < 256 := h b0 (by simp)
    have hb1 : b1 < 256 := h b1 (by simp)
    have hb2 : b2 < 256 := h b2 (by simp)
    have ih := b64_roundtrip rest (fun b hb => h b (by simp [hb]))
    simp only [b64encodeBytes, b64decodeChars,
      b64val_b64char (b0 / 4) (by omega),
      b64val_b64char (b0 % 4 * 16 + b1 / 16) (by omega),
      b64val_b64char (b1 % 16 * 4 + b2 / 64) (by omega),
      b64val_b64char (b2 % 64) (by omega), ih]
    have hx : b0 / 4 * 4 + (b0 % 4 * 16 + b1 / 16) / 16 = b0 := by omega
    have hy : (b0 % 4 * 16 + b1 / 16) % 16 * 16 + (b1 % 16 * 4 + b2 / 64) / 4 = b1 := by
      omega
    have hz : (b1 % 16 * 4 + b2 / 64) % 4 * 64 + b2 % 64 = b2 := by omega
    rw [hx, hy, hz]

theorem splitDotAux_no_dot (a : List Char) (acc : List Char) (h : '.' ∉ a) :
    splitDotAux a acc = [acc.reverse ++ a] := by
  induction a generalizing acc with
  | nil => simp [splitDotAux]
  | cons c rest ih =>
    have hc : ¬ c = '.' := fun hc => h (by simp [hc])
    have hrest : '.' ∉ rest := fun hr => h (List.mem_cons_of_mem _ hr)
    simp only [splitDotAux, if_neg hc]
    rw [ih (c :: acc) hrest]
    simp

theorem splitDotAux_dot (a r : List Char) (acc : List Char) (h : '.' ∉ a) :
    splitDotAux (a ++ '.' :: r) acc = (acc.reverse ++ a) :: splitDotAux r [] := by
  induction a generalizing acc with
  | nil => simp [splitDotAux]
  | cons c rest ih =>
    have hc : ¬ c = '.' := fun hc => h (by simp [hc])
    have hrest : '.' ∉ rest := fun hr => h (List.mem_cons_of_mem _ hr)
    simp only [List.cons_append, splitDotAux, if_neg hc, List.append_eq]
    rw [ih (c :: acc) hrest]
    simp

/-- Splitting a three-component token recovers its dot-free components. -/
theorem splitDot_three (a b c : List Char) (ha : '.' ∉ a) (hb : '.' ∉ b)
    (hc : '.' ∉ c) : splitDot (a ++ '.' :: (b ++ '.' :: c)) = [a, b, c] := by
  unfold splitDot
  rw [splitDotAux_dot _ _ _ ha, splitDotAux_dot _ _ _ hb, splitDotAux_no_dot _ _ hc]
  simp

theorem headerJson_lt : ∀ b ∈ headerJson, b < 256 := by decide

-- Claim theorem: C5 -----------------------------------------------------------

/-- Claim C5: decoding the encoding of any serializable claim under the same
key returns exactly that claim.  The theorem is generic over the claim type,
its serde codec and the keyed MAC, exactly as the source functions are; the
hypotheses are the external crates' contracts (serde round-trip, byte-valued
output). -/
theorem jwt_encode_decode_roundtrip {C : Type} (ser : C → List Nat)
    (deser : List Nat → Option C) (mac : List Nat → List Nat → List Nat)
    (key : List Nat) (c : C)
    (hser : ∀ b ∈ ser c, b < 256)
    (hmac : ∀ k m, ∀ b ∈ mac k m, b < 256)
    (hround : deser (ser c) = some c) :
    jwt_decode deser mac key (jwt_encode ser mac key c) = .ok c := by
  have hhd : '.' ∉ headerB64 := b64encode_no_dot _
  have hpd : '.' ∉ b64encodeBytes (ser c) := b64encode_no_dot _
  have hsd : '.' ∉ b64encodeBytes
      (mac key ((headerB64 ++ '.' :: b64encodeBytes (ser c)).map Char.toNat)) :=
    b64encode_no_dot _
  have hparts : jwt_decode deser mac key (jwt_encode ser mac key c)
      = jwtVerifyParts deser mac key headerB64 (b64encodeBytes (ser c))
          (b64encodeBytes
            (mac key ((headerB64 ++ '.' :: b64encodeBytes (ser c)).map Char.toNat))) := by
    unfold jwt_decode jwt_encode
    rw [List.append_assoc, List.cons_append, splitDot_three _ _ _ hhd hpd hsd]
  rw [hparts]
  have h1 : b64decodeChars headerB64 = some headerJson :=
    b64_roundtrip headerJson headerJson_lt
  have h2 : b64decodeChars (b64encodeBytes (ser c)) = some (ser c) :=
    b64_roundtrip _ hser
  have h3 : b64decodeChars (b64encodeBytes
      (mac key ((headerB64 ++ '.' :: b64encodeBytes (ser c)).map Char.toNat)))
        = some (mac key ((headerB64 ++ '.' :: b64encodeBytes (ser c)).map Char.toNat)) :=
    b64_roundtrip _ (hmac _ _)
  simp only [jwtVerifyParts, h1, h2, h3, hround, eq_self_iff_true, if_true]

/-- Witness for C5 at a concrete codec, MAC, key and claim. -/
theorem jwt_encode_decode_roundtrip_witness :
    jwt_decode (fun l => match l with | [n] => some n | _ => none)
        (fun _ _ => [7]) [1, 2]
        (jwt_encode (fun n => [n % 256]) (fun _ _ => [7]) [1, 2] 42)
      = Except.ok 42 :=
  jwt_encode_decode_roundtrip (fun n => [n % 256])
    (fun l => match l with | [n] => some n | _ => none)
    (fun _ _ => [7]) [1, 2] 42 (by decide)
    (fun k m b hb => by simp only [List.mem_singleton] at hb; omega)
    (by decide)

/-- Claim C7: for every RNG stream `g` and every `n`, `random_token g n` has
length exactly `n` and every character of it is alphanumeric
(A-Z, a-z, 0-9). -/
theorem random_token_spec (g : Nat → Fin 62) (n : Nat) :
    (random_token g n).length = n
    ∧ (random_token g n).data.all isAlphanumChar = true := by
  constructor
  · simp [random_token, String.length]
  · simp only [random_token, List.all_eq_true]
    intro c hc
    simp only [List.mem_map, List.mem_range] at hc
    obtain ⟨i, -, rfl⟩ := hc
    exact sampleChar_alnum (g i)
